import Mathlib

/-!
Verification development for the openchess game-session engine.

Shallow embedding of:
  - the session store (src/lib/archived-game.test.ts, module part starting at
    line 542: game/seat records, joinGame, deductTimeAndMove, checkTimeout,
    checkAndProcessAbandonment, setAbandonmentTimer, archiveGame,
    createRematchGame, draw/rematch offers, deleteGame);
  - the WebSocket dispatcher and command handlers (src/unnamed/part_023 = ws.ts:
    inbound pipeline, handleJoin clock section, handleMove, handleDrawOffer,
    handleDrawAccept, handleRematchAccept, handleFlag);
  - frame validation and CORS (src/unnamed/part_026 = ws-validation.ts + cors.ts);
  - the sweeper (src/lib/redis-sweep.ts, sweepZombieRooms per-game body).

Conventions: JS numbers (epoch milliseconds, clock balances) are Int; the Redis
hash for one game id is a typed record; a missing Redis key is `none`; the
empty-string wire value of a seat token is encoded as `none`. TTL refreshes and
logging have no observable effect on the modelled state and are omitted.
chess.js is modelled as an explicit oracle parameter (`ChessApi`).
-/

namespace OpenChess

/-- Player color. -/
inductive Color
  | white
  | black
  deriving DecidableEq, Repr

/-- The opposite color (`playerColor === "white" ? "black" : "white"`). -/
def Color.other : Color → Color
  | .white => .black
  | .black => .white

/-- Game status enum (migration part_000 / GameStatus in game-session). -/
inductive GameStatus
  | WAITING
  | IN_PROGRESS
  | FINISHED
  | ABANDONED
  deriving DecidableEq, Repr

/-- Game result enum. -/
inductive GameResult
  | WHITE_WINS
  | BLACK_WINS
  | DRAW
  deriving DecidableEq, Repr

/-- The result that declares `c` the winner. -/
def winsFor : Color → GameResult
  | .white => .WHITE_WINS
  | .black => .BLACK_WINS

/-- creatorColor field: white, black or random (resolved at join). -/
inductive CreatorColor
  | white
  | black
  | random
  deriving DecidableEq, Repr

/-- One move-log entry (GameMove in game-session). The source field holding the
SAN text is called `notation`, a reserved word in Lean, so it is named `san`
here. -/
structure GameMove where
  moveNumber : Nat
  san : String
  fen : String
  createdAt : Int
  deriving DecidableEq, Repr

/-- The Redis hash `game:{id}` (fields written by createGame and mutated by the
session store). -/
structure GameHot where
  status : GameStatus
  currentFen : String
  result : Option GameResult
  isPublic : Bool
  createdAt : Int
  timeInitialMs : Int
  timeIncrementMs : Int
  whiteTimeMs : Int
  blackTimeMs : Int
  lastMoveAt : Int
  creatorColor : CreatorColor
  deriving DecidableEq, Repr

/-- The Redis hash `game:{id}:seats`. An empty-string `blackToken` on the wire
is encoded as `none`. -/
structure Seats where
  whiteToken : String
  whiteConnected : Bool
  blackToken : Option String
  blackConnected : Bool
  deriving DecidableEq, Repr

/-- `{disconnectedColor, deadline}` stored under `game:{id}:abandonment`. -/
structure AbandonmentInfo where
  disconnectedColor : Color
  deadline : Int
  deriving DecidableEq, Repr

/-- One durable archive row (prisma `Game` plus its `Move` rows). -/
structure ArchiveRow where
  status : GameStatus
  result : Option GameResult
  whiteToken : String
  blackToken : Option String
  isPublic : Bool
  timeInitialMs : Int
  timeIncrementMs : Int
  createdAt : Int
  moves : List GameMove
  deriving DecidableEq, Repr

/-- All store state attached to a single game id: the hot Redis keys plus the
durable archive rows for that id (`archived` lists the prisma rows whose
primary key equals this id, so uniqueness shows up as length ≤ 1). -/
structure RoomState where
  game : Option GameHot
  seats : Option Seats
  moves : List GameMove
  drawOffer : Option Color
  rematchOffer : Option Color
  abandonment : Option AbandonmentInfo
  archived : List ArchiveRow
  deriving DecidableEq, Repr

/-- getSeats (game-session): null when the hash is missing or `whiteToken` is
falsy (empty). -/
def getSeats (s : RoomState) : Option Seats :=
  match s.seats with
  | none => none
  | some st => if st.whiteToken = "" then none else some st

/-- The GameSession view returned by getGame: the game hash joined with the
seat tokens (`whiteToken: seats?.whiteToken ?? ""`,
`blackToken: seats?.blackToken || null`). -/
structure GameSession extends GameHot where
  whiteToken : String
  blackToken : Option String
  deriving DecidableEq, Repr

/-- getGame (game-session): null when the game hash is missing. -/
def getGame (s : RoomState) : Option GameSession :=
  match s.game with
  | none => none
  | some gh =>
    let seats := getSeats s
    some { toGameHot := gh,
           whiteToken := (seats.map Seats.whiteToken).getD "",
           blackToken := seats.bind Seats.blackToken }

/-- The stored clock balance of a color (`whiteTimeMs` / `blackTimeMs`). -/
def GameHot.balanceOf (g : GameHot) : Color → Int
  | .white => g.whiteTimeMs
  | .black => g.blackTimeMs

/-- The standard initial position (INITIAL_FEN in game-session). -/
def INITIAL_FEN : String :=
  "rnbqkbnr/pppppppp/8/8/8/8/PPPPPPPP/RNBQKBNR w KQkq - 0 1"

/-- Default of the `ABANDONMENT_TIMEOUT_SECONDS` environment variable (the env
override is not modelled). -/
def ABANDONMENT_TIMEOUT_SECONDS : Int := 300

/-- setGameResult: `HSET status FINISHED, result r` (TTL refresh omitted).
The handlers only call it while the game hash exists, so the update is modelled
through `Option.map`. -/
def setGameResult (s : RoomState) (r : GameResult) : RoomState :=
  { s with game := s.game.map fun g =>
      { g with status := .FINISHED, result := some r } }

/-- setGameAbandoned: `HSET status ABANDONED, result r`. -/
def setGameAbandoned (s : RoomState) (r : GameResult) : RoomState :=
  { s with game := s.game.map fun g =>
      { g with status := .ABANDONED, result := some r } }

/-- addMove: RPUSH the move and `HSET currentFen move.fen`. -/
def addMove (s : RoomState) (mv : GameMove) : RoomState :=
  { s with moves := s.moves ++ [mv],
           game := s.game.map fun g => { g with currentFen := mv.fen } }

/-- clearDrawOffer: DEL of the draw-offer key. -/
def clearDrawOffer (s : RoomState) : RoomState :=
  { s with drawOffer := none }

/-- setDrawOffer: SET of the draw-offer key (TTL omitted). -/
def setDrawOffer (s : RoomState) (c : Color) : RoomState :=
  { s with drawOffer := some c }

/-- clearRematchOffer: DEL of the rematch-offer key. -/
def clearRematchOffer (s : RoomState) : RoomState :=
  { s with rematchOffer := none }

/-- clearAbandonmentTimer: DEL of the abandonment key. -/
def clearAbandonmentTimer (s : RoomState) : RoomState :=
  { s with abandonment := none }

/-- setAbandonmentTimer: stores `{disconnectedColor, deadline = now + timeout}`. -/
def setAbandonmentTimer (s : RoomState) (disconnectedColor : Color)
    (now : Int) : RoomState :=
  { s with
    abandonment := some ⟨disconnectedColor, now + ABANDONMENT_TIMEOUT_SECONDS * 1000⟩ }

/-- getConnectionStatus: the seat connection bits, defaulting to false when the
seats record is absent. -/
def getConnectionStatus (s : RoomState) : Bool × Bool :=
  match getSeats s with
  | none => (false, false)
  | some st => (st.whiteConnected, st.blackConnected)

/-- deleteGame: DEL of every hot key of the room (the durable archive rows
survive). -/
def deleteGame (s : RoomState) : RoomState :=
  { game := none, seats := none, moves := [], drawOffer := none,
    rematchOffer := none, abandonment := none, archived := s.archived }

/-- The prisma row written by archiveGame (`prisma.game.create`). -/
def mkArchiveRow (g : GameSession) (moves : List GameMove) : ArchiveRow :=
  { status := g.status, result := g.result, whiteToken := g.whiteToken,
    blackToken := g.blackToken, isPublic := g.isPublic,
    timeInitialMs := g.timeInitialMs, timeIncrementMs := g.timeIncrementMs,
    createdAt := g.createdAt, moves := moves }

/-- archiveGame: returns untouched unless the game exists with a terminal
status; skips the insert when a durable row with this id already exists
(`prisma.game.findUnique`); otherwise inserts one row with the move log. -/
def archiveGame (s : RoomState) : RoomState :=
  match getGame s with
  | none => s
  | some g =>
    if g.status = .FINISHED ∨ g.status = .ABANDONED then
      match s.archived with
      | [] => { s with archived := [mkArchiveRow g s.moves] }
      | _ :: _ => s
    else s

/-- Result record of deductTimeAndMove. -/
structure DeductTimeResult where
  whiteTimeMs : Int
  blackTimeMs : Int
  timedOut : Bool
  loser : Option Color
  deriving DecidableEq, Repr

/-- deductTimeAndMove: the atomic Lua script. Reads `lastMoveAt` and the
mover's balance (with the script's `or 0` defaults for a missing hash),
computes `remaining = balance - (nowMs - lastMoveAt)`; if `remaining ≤ 0` it
returns a timeout for the mover without writing anything; otherwise it credits
the increment, stamps `lastMoveAt = nowMs`, writes the FEN and appends the
move. The increment is fetched as `getGame(id)?.timeIncrementMs ?? 0`. -/
def deductTimeAndMove (s : RoomState) (moverColor : Color) (mv : GameMove)
    (nowMs : Int) : RoomState × DeductTimeResult :=
  let lastMoveAt := (s.game.map GameHot.lastMoveAt).getD 0
  let bal := (s.game.map fun g => g.balanceOf moverColor).getD 0
  let incrementMs := (s.game.map GameHot.timeIncrementMs).getD 0
  let elapsed := nowMs - lastMoveAt
  let remaining := bal - elapsed
  if remaining ≤ 0 then
    (s, { whiteTimeMs := 0, blackTimeMs := 0, timedOut := true,
          loser := some moverColor })
  else
    let remaining2 := remaining + incrementMs
    let s2 : RoomState :=
      { s with
        game := s.game.map fun g =>
          match moverColor with
          | .white => { g with whiteTimeMs := remaining2, lastMoveAt := nowMs,
                               currentFen := mv.fen }
          | .black => { g with blackTimeMs := remaining2, lastMoveAt := nowMs,
                               currentFen := mv.fen },
        moves := s.moves ++ [mv] }
    ((s2),
     { whiteTimeMs := (s2.game.map GameHot.whiteTimeMs).getD 0,
       blackTimeMs := (s2.game.map GameHot.blackTimeMs).getD 0,
       timedOut := false, loser := none })

/-- Result record of checkTimeout. -/
structure TimeoutResult where
  timedOut : Bool
  remainingMs : Int
  deriving DecidableEq, Repr

/-- checkTimeout: reads the game hash; when it is missing the answer is
`{timedOut: false, remainingMs: 0}` (the source guard `!data.lastMoveAt` only
fires for a missing hash, since the field is always a non-empty numeral once
the game exists). Otherwise `remaining = balanceOf activeColor - (nowMs -
lastMoveAt)` and the timeout fires iff `remaining ≤ 0`. -/
def checkTimeout (s : RoomState) (activeColor : Color) (nowMs : Int) :
    TimeoutResult :=
  match s.game with
  | none => { timedOut := false, remainingMs := 0 }
  | some g =>
    let remaining := g.balanceOf activeColor
    let elapsed := nowMs - g.lastMoveAt
    let currentRemaining := remaining - elapsed
    { timedOut := decide (currentRemaining ≤ 0),
      remainingMs := max 0 currentRemaining }

/-- Result record of checkAndProcessAbandonment. -/
structure AbandonCheck where
  abandoned : Bool
  result : Option GameResult
  deriving DecidableEq, Repr

/-- checkAndProcessAbandonment: when an abandonment timer exists and its
deadline has passed (`Date.now() >= deadline`), sets the game ABANDONED with
the opponent of the disconnected color as winner, clears the timer and
archives; otherwise a no-op. -/
def checkAndProcessAbandonment (s : RoomState) (now : Int) :
    RoomState × AbandonCheck :=
  match s.abandonment with
  | none => (s, { abandoned := false, result := none })
  | some info =>
    if info.deadline ≤ now then
      let result : GameResult :=
        if info.disconnectedColor = .white then .BLACK_WINS else .WHITE_WINS
      let s1 := setGameAbandoned s result
      let s2 := clearAbandonmentTimer s1
      let s3 := archiveGame s2
      (s3, { abandoned := true, result := some result })
    else (s, { abandoned := false, result := none })

/-- Result of a successful joinGame. -/
structure JoinResult where
  token : String
  role : Color
  deriving DecidableEq, Repr

/-- joinGame (game-session lines 858-932). Nondeterminism is made explicit:
`joinerToken` stands for the fresh `crypto.randomUUID()` and `coinWhite` for
the `Math.random() < 0.5` outcome used when `creatorColor = random`. The body
first checks `status === WAITING && !blackToken` on the getGame view, resolves
the creator color, then runs the atomic script which re-checks status and the
raw seat hash, flips the status to IN_PROGRESS, seats the joiner (swapping the
tokens when the creator resolved to black), and stamps both clocks and
`lastMoveAt` for a timed game. Returns null on any failed check, leaving the
record unchanged. -/
def joinGame (s : RoomState) (joinerToken : String) (coinWhite : Bool)
    (nowMs : Int) : RoomState × Option JoinResult :=
  match getGame s with
  | none => (s, none)
  | some g =>
    if g.status ≠ .WAITING ∨ g.blackToken ≠ none then (s, none)
    else
      let resolvedCreatorColor : Color :=
        match g.creatorColor with
        | .random => if coinWhite then .white else .black
        | .white => .white
        | .black => .black
      let swapColors := resolvedCreatorColor = Color.black
      -- the atomic script: HGET status / blackToken from the raw hashes
      let st0 : Seats := s.seats.getD
        { whiteToken := "", whiteConnected := false,
          blackToken := none, blackConnected := false }
      if (s.game.map GameHot.status) ≠ some .WAITING then (s, none)
      else if st0.blackToken ≠ none then (s, none)
      else
        let seats1 : Seats :=
          if swapColors then
            { st0 with whiteToken := joinerToken, whiteConnected := true,
                       blackToken := some st0.whiteToken, blackConnected := false }
          else
            { st0 with blackToken := some joinerToken, blackConnected := true }
        let game1 := s.game.map fun gh =>
          let gh1 := { gh with status := GameStatus.IN_PROGRESS }
          if gh1.timeInitialMs > 0 then
            { gh1 with whiteTimeMs := gh1.timeInitialMs,
                       blackTimeMs := gh1.timeInitialMs, lastMoveAt := nowMs }
          else gh1
        let s2 := { s with game := game1, seats := some seats1 }
        let joinerRole : Color :=
          if resolvedCreatorColor = Color.black then .white else .black
        (s2, some { token := joinerToken, role := joinerRole })

/-- createRematchGame (game-session lines 1372-1413): mints a brand-new room
that starts IN_PROGRESS with both seats marked connected and fresh tokens.
The first two arguments (the previous game's tokens) are accepted but unused,
as in the source; the color swap is realized by the caller when it hands the
new tokens out. The fresh UUIDs are passed in explicitly. -/
def createRematchGame (originalWhiteToken originalBlackToken : String)
    (timeInitialMs timeIncrementMs : Int)
    (newGameId newWhiteToken newBlackToken : String) (now : Int) :
    RoomState × String × String × String :=
  let _ := originalWhiteToken
  let _ := originalBlackToken
  let game : GameHot :=
    { status := .IN_PROGRESS, currentFen := INITIAL_FEN, result := none,
      isPublic := false, createdAt := now,
      timeInitialMs := timeInitialMs, timeIncrementMs := timeIncrementMs,
      whiteTimeMs := timeInitialMs, blackTimeMs := timeInitialMs,
      lastMoveAt := if timeInitialMs > 0 then now else 0,
      creatorColor := .white }
  let seats : Seats :=
    { whiteToken := newWhiteToken, whiteConnected := true,
      blackToken := some newBlackToken, blackConnected := true }
  ({ game := some game, seats := some seats, moves := [], drawOffer := none,
     rematchOffer := none, abandonment := none, archived := [] },
   newGameId, newWhiteToken, newBlackToken)

/-! ### Outbound frames and the command handlers (ws.ts = part_023) -/

/-- The outbound frames emitted by the modelled handlers. `moveF` carries the
optional `{whiteTimeMs, blackTimeMs}` pair attached for timed games. -/
inductive Frame
  | error (msg : String)
  | flag (result : GameResult) (whiteTimeMs blackTimeMs : Int)
  | moveF (fromSq toSq san fen : String) (moveNumber : Nat) (createdAt : Int)
      (gameOver : Bool) (result : Option GameResult)
      (times : Option (Int × Int))
  | gameAbandoned (result : Option GameResult)
  | drawOfferF (fromColor : Color)
  | drawAccepted (result : GameResult)
  deriving DecidableEq, Repr

/-- Where a frame goes: `ws.send` to the sender only, or `broadcastAll` to the
room. -/
inductive Emit
  | toSender (f : Frame)
  | toAll (f : Frame)
  deriving DecidableEq, Repr

/-- The `token === game.whiteToken / game.blackToken` player resolution every
handler performs. Both sides of the second comparison are nullable in JS, so
it is an Option equality (null === null holds). -/
def resolvePlayer (g : GameSession) (token : Option String) : Option Color :=
  if token = some g.whiteToken then some .white
  else if token = g.blackToken then some .black
  else none

/-- handleDrawAccept (ws.ts lines 897-947): requires the game IN_PROGRESS, the
sender seated, and a pending offer by the opponent; then result DRAW, offer
cleared, game archived, `draw_accepted` broadcast. -/
def handleDrawAccept (s : RoomState) (token : Option String) :
    RoomState × List Emit :=
  match getGame s with
  | none => (s, [.toSender (.error "Game not found")])
  | some g =>
    if g.status ≠ .IN_PROGRESS then
      (s, [.toSender (.error "Game is not in progress")])
    else
      match resolvePlayer g token with
      | none => (s, [.toSender (.error "You are not a player in this game")])
      | some pc =>
        match s.drawOffer with
        | none => (s, [.toSender (.error "No pending draw offer to accept")])
        | some oc =>
          if oc = pc then
            (s, [.toSender (.error "No pending draw offer to accept")])
          else
            let s1 := setGameResult s .DRAW
            let s2 := clearDrawOffer s1
            let s3 := archiveGame s2
            (s3, [.toAll (.drawAccepted .DRAW)])

/-- handleDrawOffer (ws.ts lines 843-895): records the sender's color in the
single offer slot and broadcasts `draw_offer`; an existing offer by the same
color is an error, and an existing offer by the opponent routes to
handleDrawAccept (implicit accept). -/
def handleDrawOffer (s : RoomState) (token : Option String) :
    RoomState × List Emit :=
  match getGame s with
  | none => (s, [.toSender (.error "Game not found")])
  | some g =>
    if g.status ≠ .IN_PROGRESS then
      (s, [.toSender (.error "Game is not in progress")])
    else
      match resolvePlayer g token with
      | none => (s, [.toSender (.error "You are not a player in this game")])
      | some pc =>
        match s.drawOffer with
        | some oc =>
          if oc = pc then
            (s, [.toSender (.error "You already offered a draw")])
          else handleDrawAccept s token
        | none =>
          (setDrawOffer s pc, [.toAll (.drawOfferF pc)])

/-- handleFlag (ws.ts lines 1254-1308): for a timed IN_PROGRESS game a seated
sender triggers `checkTimeout` against the OPPONENT only (the side to move is
never consulted); when the opponent has not busted the handler silently
returns — no frame at all, not even an error — and the record is untouched;
when it has, the result favoring the sender is set, the game archived, and a
`flag` frame broadcast showing 0 for the busted side and the stored balance
for the other. -/
def handleFlag (s : RoomState) (token : Option String) (now : Int) :
    RoomState × List Emit :=
  match getGame s with
  | none => (s, [.toSender (.error "Game not found")])
  | some g =>
    if g.status ≠ .IN_PROGRESS ∨ g.timeInitialMs = 0 then
      (s, [.toSender (.error "Not a timed game in progress")])
    else
      match resolvePlayer g token with
      | none => (s, [.toSender (.error "You are not a player in this game")])
      | some pc =>
        let opponentColor := pc.other
        let tr := checkTimeout s opponentColor now
        if ¬ tr.timedOut then (s, [])
        else
          let result : GameResult :=
            if opponentColor = .white then .BLACK_WINS else .WHITE_WINS
          let s1 := setGameResult s result
          let s2 := archiveGame s1
          (s2, [.toAll (.flag result
            (if opponentColor = .white then 0 else g.whiteTimeMs)
            (if opponentColor = .black then 0 else g.blackTimeMs))])

/-- What a successful `chess.move(...)` yields that the handler uses: the SAN
text and the post-move FEN. -/
structure ChessMoveOut where
  san : String
  fen : String
  deriving DecidableEq, Repr

/-- The chess.js surface used by handleMove, as an explicit oracle: `turn` of
a FEN, the move attempt (null/throw collapsed to `none`), and the terminal
predicates evaluated on the post-move position. -/
structure ChessApi where
  turn : String → Color
  tryMove : String → String → String → Option String → Option ChessMoveOut
  isCheckmate : String → Bool
  isDraw : String → Bool

/-- The tail of handleMove after the move is recorded (ws.ts lines 767-798):
terminal detection on the post-move position, result/archive on game over,
the single `move` broadcast, and clearing a pending draw offer when the game
goes on. -/
def handleMoveTail (api : ChessApi) (s : RoomState)
    (fromSq toSq san newFen : String) (moveNumber : Nat) (createdAt : Int)
    (times : Option (Int × Int)) : RoomState × List Emit :=
  let checkmate := api.isCheckmate newFen
  let draw := api.isDraw newFen
  let gameOver := checkmate || draw
  let result : Option GameResult :=
    if checkmate then
      some (if api.turn newFen = Color.white then .BLACK_WINS else .WHITE_WINS)
    else if draw then some .DRAW
    else none
  let s1 :=
    match gameOver, result with
    | true, some r => archiveGame (setGameResult s r)
    | _, _ => s
  let s2 := if gameOver then s1 else clearDrawOffer s1
  (s2, [.toAll (.moveF fromSq toSq san newFen moveNumber createdAt
                 gameOver result times)])

/-- handleMove (ws.ts lines 649-799). A single `now` models every `Date.now()`
taken during one handler run. Order of the source: abandonment check, game
fetch, IN_PROGRESS check, seat resolution, turn check, chess.js move attempt,
then the timed path through the atomic deductTimeAndMove (flag broadcast on
timeout, nothing written) or the untimed addMove, and the common tail. -/
def handleMove (api : ChessApi) (s : RoomState) (token : Option String)
    (fromSq toSq : String) (promotion : Option String) (now : Int) :
    RoomState × List Emit :=
  let ab := checkAndProcessAbandonment s now
  if ab.2.abandoned then
    (ab.1, [.toAll (.gameAbandoned ab.2.result)])
  else
    let s0 := ab.1
    match getGame s0 with
    | none => (s0, [.toSender (.error "Game not found")])
    | some g =>
      if g.status ≠ .IN_PROGRESS then
        (s0, [.toSender (.error "Game is not in progress")])
      else
        match resolvePlayer g token with
        | none =>
          (s0, [.toSender (.error "You are not a player in this game")])
        | some pc =>
          if api.turn g.currentFen ≠ pc then
            (s0, [.toSender (.error "Not your turn")])
          else
            match api.tryMove g.currentFen fromSq toSq promotion with
            | none => (s0, [.toSender (.error "Invalid move")])
            | some mv =>
              let moveNumber := s0.moves.length + 1
              let newFen := mv.fen
              let gameMove : GameMove :=
                { moveNumber := moveNumber, san := mv.san, fen := newFen,
                  createdAt := now }
              if g.timeInitialMs > 0 then
                let dr := deductTimeAndMove s0 pc gameMove now
                if dr.2.timedOut then
                  let result : GameResult :=
                    if dr.2.loser = some Color.white then .BLACK_WINS
                    else .WHITE_WINS
                  let s2 := setGameResult dr.1 result
                  let s3 := archiveGame s2
                  (s3, [.toAll (.flag result 0 0)])
                else
                  handleMoveTail api dr.1 fromSq toSq mv.san newFen
                    moveNumber now (some (dr.2.whiteTimeMs, dr.2.blackTimeMs))
              else
                handleMoveTail api (addMove s0 gameMove) fromSq toSq mv.san
                  newFen moveNumber now none

/-- The per-peer token handed out in the `rematch_accepted` frame (ws.ts lines
1156-1163): the holder of the previous white token receives the new BLACK
token and the holder of the previous black token the new WHITE token; anyone
else (spectators) gets none. JS `===` on two nullable strings is Option
equality. -/
def rematchTokenFor (g : GameSession) (newWhiteToken newBlackToken : String)
    (oldToken : Option String) : Option String :=
  if oldToken = some g.whiteToken then some newBlackToken
  else if oldToken = g.blackToken then some newWhiteToken
  else none

/-- Outcome of handleRematchAccept: an error frame to the sender, or the new
room plus the identifiers every peer is told about (the old room has its
rematch offer cleared and is then deleted). -/
inductive RematchOutcome
  | errorReply (msg : String)
  | accepted (newRoom : RoomState)
      (newGameId newWhiteToken newBlackToken : String) (oldRoom : RoomState)
  deriving DecidableEq, Repr

/-- handleRematchAccept (ws.ts lines 1098-1176): requires the game FINISHED,
the sender seated, and a pending rematch offer by the opponent; then
createRematchGame mints the swapped-color room, the offer is cleared, each
peer is sent `rematch_accepted` with the token chosen by `rematchTokenFor`,
and the old record is deleted. The fresh UUIDs are explicit arguments. -/
def handleRematchAccept (s : RoomState) (token : Option String)
    (newGameId newWhiteToken newBlackToken : String) (now : Int) :
    RematchOutcome :=
  match getGame s with
  | none => .errorReply "Game not found"
  | some g =>
    if g.status ≠ .FINISHED then .errorReply "Game is not finished"
    else
      match resolvePlayer g token with
      | none => .errorReply "You are not a player in this game"
      | some pc =>
        match s.rematchOffer with
        | none => .errorReply "No pending rematch offer to accept"
        | some oc =>
          if oc = pc then .errorReply "No pending rematch offer to accept"
          else
            let created := createRematchGame g.whiteToken
              (g.blackToken.getD "") g.timeInitialMs g.timeIncrementMs
              newGameId newWhiteToken newBlackToken now
            let sOld := deleteGame (clearRematchOffer s)
            .accepted created.1 created.2.1 created.2.2.1 created.2.2.2 sOld

/-! ### The game_state clock check (handleJoin, ws.ts lines 564-606) -/

/-- Split a character list at every space, keeping empty segments — the
semantics of the JS `split(" ")`. Structural recursion so that concrete
evaluations reduce. -/
def splitOnSpaceAux : List Char → List Char → List (List Char)
  | [], acc => [acc.reverse]
  | c :: rest, acc =>
    if c = ' ' then acc.reverse :: splitOnSpaceAux rest []
    else splitOnSpaceAux rest (c :: acc)

/-- The side-to-move field of a FEN as read by the handler:
`actualFen.split(" ")[1]` (the empty string when the FEN has no second
field, matching the JS undefined-compares-unequal behavior). -/
def turnField (fen : String) : String :=
  String.mk ((splitOnSpaceAux fen.data []).getD 1 [])

/-- What happens at the clock check performed right before a `game_state`
emission: either the server finalizes a flag (broadcasting `flag` to the room
and never sending `game_state`), or it proceeds to emit `game_state`, with the
live clock pair attached for a timed game. -/
inductive ClockOutcome
  | flagFinalized (s1 : RoomState) (f : Frame)
  | stateEmission (clock : Option (Int × Int))
  deriving DecidableEq, Repr

/-- The clock section of handleJoin (ws.ts lines 564-606). For a timed game:
a WAITING game shows both clocks at `timeInitialMs`; an IN_PROGRESS game with
`lastMoveAt > 0` charges the elapsed time to the side to move of `actualFen`
(clamped at 0) and, when either live value is ≤ 0, sets the result against the
busted side (white checked first), archives, broadcasts `flag` and returns
without emitting `game_state`. -/
def emitGameStateClock (s : RoomState) (g : GameSession) (actualFen : String)
    (now : Int) : ClockOutcome :=
  if g.timeInitialMs > 0 then
    let liveW0 := g.whiteTimeMs
    let liveB0 := g.blackTimeMs
    let live1 :=
      if g.status = GameStatus.WAITING then (g.timeInitialMs, g.timeInitialMs)
      else (liveW0, liveB0)
    if g.status = GameStatus.IN_PROGRESS ∧ g.lastMoveAt > 0 then
      let elapsed := now - g.lastMoveAt
      let live2 :=
        if turnField actualFen = "w" then
          (max 0 (g.whiteTimeMs - elapsed), live1.2)
        else (live1.1, max 0 (g.blackTimeMs - elapsed))
      if live2.1 ≤ 0 ∨ live2.2 ≤ 0 then
        let loser : Color := if live2.1 ≤ 0 then .white else .black
        let result : GameResult :=
          if loser = Color.white then .BLACK_WINS else .WHITE_WINS
        let s1 := setGameResult s result
        let s2 := archiveGame s1
        .flagFinalized s2 (.flag result (max 0 live2.1) (max 0 live2.2))
      else .stateEmission (some live2)
    else .stateEmission (some live1)
  else .stateEmission none

/-! ### The sweeper (redis-sweep.ts) -/

/-- The per-game body of sweepZombieRooms (redis-sweep.ts lines 100-140):
skip unless IN_PROGRESS; with both connection bits down, set an abandonment
timer with the canonical `disconnectedColor = white` if none exists, else run
the abandonment check; with exactly one bit down, run the abandonment check.
Returns the new state and whether the room was cleaned (finalized). -/
def sweepZombieRoomStep (s : RoomState) (now : Int) : RoomState × Bool :=
  match getGame s with
  | none => (s, false)
  | some g =>
    if g.status ≠ .IN_PROGRESS then (s, false)
    else
      let conn := getConnectionStatus s
      if ¬ conn.1 ∧ ¬ conn.2 then
        match s.abandonment with
        | none => (setAbandonmentTimer s .white now, false)
        | some _ =>
          let r := checkAndProcessAbandonment s now
          (r.1, r.2.abandoned)
      else if ¬ conn.1 ∨ ¬ conn.2 then
        let r := checkAndProcessAbandonment s now
        (r.1, r.2.abandoned)
      else (s, false)

/-! ### Inbound frame pipeline (ws.ts lines 156-177, ws-validation.ts) -/

/-- MAX_MESSAGE_SIZE from ws-validation.ts. -/
def MAX_MESSAGE_SIZE : Nat := 1024

/-- checkMessageSize (ws-validation.ts lines 149-154): an error string when
the raw frame exceeds MAX_MESSAGE_SIZE, null otherwise. -/
def checkMessageSize (rawMessage : String) : Option String :=
  if rawMessage.length > MAX_MESSAGE_SIZE then
    some ("Message too large: " ++ toString rawMessage.length ++
      " bytes (max " ++ toString MAX_MESSAGE_SIZE ++ ")")
  else none

/-- How the message listener disposes of one inbound frame: an `error` frame
sent back to the sender (processing stops), or the frame reaches its handler. -/
inductive InboundStep
  | errorReply (msg : String)
  | handled
  deriving DecidableEq, Repr

/-- The inbound pipeline of ws.ts lines 156-177: size check first, then
`JSON.parse` (abstracted as `parseJson`; null on a parse throw), then
validation and dispatch (abstracted as `handle`). The pipeline never parses a
frame the size check rejected. -/
def processInboundFrame {α : Type} (parseJson : String → Option α)
    (handle : α → InboundStep) (raw : String) : InboundStep :=
  match checkMessageSize raw with
  | some msg => .errorReply msg
  | none =>
    match parseJson raw with
    | none => .errorReply "Invalid JSON"
    | some v => handle v

/-! ### Origin validation (cors.ts = first section of part_026) -/

/-- parseAllowedOrigins (cors.ts lines 6-16): null when CORS_ALLOWED_ORIGINS
is unset or empty (JS falsy); otherwise the comma-split, trimmed, non-empty
entries. -/
def parseAllowedOrigins (envVar : Option String) : Option (List String) :=
  match envVar with
  | none => none
  | some v =>
    if v = "" then none
    else some (((v.splitOn ",").map String.trim).filter fun o => o.length > 0)

/-- validateWebSocketOrigin (cors.ts lines 20-53). `allowed` is the parsed
CORS_ALLOWED_ORIGINS, `isDev` is `NODE_ENV !== "production"`. A request
WITHOUT an Origin header is allowed in every configuration (production merely
logs). With an Origin header: allowed when dev with no configured list;
denied when no list is configured otherwise; else exact membership. -/
def validateWebSocketOrigin (allowed : Option (List String)) (isDev : Bool)
    (origin : Option String) : Bool :=
  match origin with
  | none => true
  | some o =>
    if isDev ∧ allowed = none then true
    else
      match allowed with
      | none => false
      | some list => list.contains o

/-- What the upgrade listener does with the origin check (ws.ts lines 80-95):
a failed validation writes a 403 response and destroys the socket; otherwise
the upgrade proceeds (to rate limiting and the handshake). -/
inductive UpgradeOutcome
  | denied403
  | proceed
  deriving DecidableEq, Repr

/-- The origin gate of the upgrade handler. -/
def upgradeOriginGate (allowed : Option (List String)) (isDev : Bool)
    (origin : Option String) : UpgradeOutcome :=
  if validateWebSocketOrigin allowed isDev origin then .proceed else .denied403

/-- The side to move that the handleJoin clock section reads off a FEN
(`turnFromFen === "w"` branches). -/
def sideToMove (fen : String) : Color :=
  if turnField fen = "w" then .white else .black

/-! ### Concrete fixtures for witnesses -/

/-- A timed IN_PROGRESS game hash: 5s initial, 100ms increment, white 3000ms
and black 4000ms stored at lastMoveAt = 1000. -/
def sampleGame : GameHot :=
  { status := .IN_PROGRESS, currentFen := INITIAL_FEN, result := none,
    isPublic := false, createdAt := 0, timeInitialMs := 5000,
    timeIncrementMs := 100, whiteTimeMs := 3000, blackTimeMs := 4000,
    lastMoveAt := 1000, creatorColor := .white }

/-- Both seats taken and connected. -/
def sampleSeats : Seats :=
  { whiteToken := "w-tok", whiteConnected := true,
    blackToken := some "b-tok", blackConnected := true }

/-- A live timed room. -/
def sampleRoom : RoomState :=
  { game := some sampleGame, seats := some sampleSeats, moves := [],
    drawOffer := none, rematchOffer := none, abandonment := none,
    archived := [] }

/-- The getGame view of `sampleRoom`. -/
def sampleSession : GameSession :=
  { toGameHot := sampleGame, whiteToken := "w-tok",
    blackToken := some "b-tok" }

/-- A WAITING game created with `creatorColor = black`. -/
def waitingGame : GameHot :=
  { status := .WAITING, currentFen := INITIAL_FEN, result := none,
    isPublic := false, createdAt := 0, timeInitialMs := 5000,
    timeIncrementMs := 100, whiteTimeMs := 0, blackTimeMs := 0,
    lastMoveAt := 0, creatorColor := .black }

/-- Seats of a WAITING room: the creator holds the white seat, no joiner yet. -/
def waitingSeats : Seats :=
  { whiteToken := "w-tok", whiteConnected := false, blackToken := none,
    blackConnected := false }

/-- A WAITING room. -/
def waitingRoom : RoomState :=
  { game := some waitingGame, seats := some waitingSeats, moves := [],
    drawOffer := none, rematchOffer := none, abandonment := none,
    archived := [] }

/-- The getGame view of `waitingRoom`. -/
def waitingSession : GameSession :=
  { toGameHot := waitingGame, whiteToken := "w-tok", blackToken := none }

/-- A FINISHED game hash. -/
def finishedGame : GameHot :=
  { status := .FINISHED, currentFen := INITIAL_FEN,
    result := some .WHITE_WINS, isPublic := false, createdAt := 0,
    timeInitialMs := 0, timeIncrementMs := 0, whiteTimeMs := 0,
    blackTimeMs := 0, lastMoveAt := 0, creatorColor := .white }

/-- A FINISHED room with a pending rematch offer by black. -/
def finishedRoom : RoomState :=
  { game := some finishedGame, seats := some sampleSeats, moves := [],
    drawOffer := none, rematchOffer := some .black, abandonment := none,
    archived := [] }

/-- The getGame view of `finishedRoom`. -/
def finishedSession : GameSession :=
  { toGameHot := finishedGame, whiteToken := "w-tok",
    blackToken := some "b-tok" }

/-- Seats with both players disconnected. -/
def zombieSeats : Seats :=
  { whiteToken := "w-tok", whiteConnected := false,
    blackToken := some "b-tok", blackConnected := false }

/-- An IN_PROGRESS room both of whose players dropped, with no timer yet. -/
def zombieRoom : RoomState :=
  { game := some sampleGame, seats := some zombieSeats, moves := [],
    drawOffer := none, rematchOffer := none, abandonment := none,
    archived := [] }

/-- A live timed room in which black has already offered a draw. -/
def drawOfferRoom : RoomState :=
  { game := some sampleGame, seats := some sampleSeats, moves := [],
    drawOffer := some .black, rematchOffer := none, abandonment := none,
    archived := [] }

/-- An IN_PROGRESS room with an expired abandonment timer for white. -/
def timedOutRoom : RoomState :=
  { game := some sampleGame, seats := some zombieSeats, moves := [],
    drawOffer := none, rematchOffer := none,
    abandonment := some ⟨.white, 5000⟩, archived := [] }

/-- A constant chess oracle used for concrete evaluations: every position has
white to move, every move attempt succeeds as SAN e4 into FEN2, and no
position is terminal. -/
def testApi : ChessApi :=
  { turn := fun _ => .white,
    tryMove := fun _ _ _ _ => some ⟨"e4", "FEN2"⟩,
    isCheckmate := fun _ => false,
    isDraw := fun _ => false }

/-! ### Helper lemmas -/

theorem getGame_none (s : RoomState) (h : s.game = none) : getGame s = none := by
  unfold getGame; rw [h]

theorem getGame_some (s : RoomState) (gh : GameHot) (h : s.game = some gh) :
    getGame s = some
      { toGameHot := gh,
        whiteToken := ((getSeats s).map Seats.whiteToken).getD "",
        blackToken := (getSeats s).bind Seats.blackToken } := by
  unfold getGame; rw [h]

theorem archiveGame_preserves (s : RoomState) :
    (archiveGame s).game = s.game ∧ (archiveGame s).seats = s.seats ∧
    (archiveGame s).moves = s.moves ∧
    (archiveGame s).drawOffer = s.drawOffer ∧
    (archiveGame s).rematchOffer = s.rematchOffer ∧
    (archiveGame s).abandonment = s.abandonment := by
  unfold archiveGame
  rcases hg : getGame s with _ | g
  · simp
  · by_cases h : g.status = GameStatus.FINISHED ∨ g.status = GameStatus.ABANDONED
    · simp only [if_pos h]
      rcases s.archived with _ | ⟨r, rs⟩ <;> simp
    · simp only [if_neg h]
      simp

theorem archiveGame_archived_ne_nil (s : RoomState) (gh : GameHot)
    (hg : s.game = some gh)
    (hstat : gh.status = GameStatus.FINISHED ∨
      gh.status = GameStatus.ABANDONED) :
    (archiveGame s).archived ≠ [] := by
  unfold archiveGame
  rw [getGame_some s gh hg]
  simp only [if_pos hstat]
  rcases ha : s.archived with _ | ⟨r, rs⟩ <;> simp [ha]

theorem setGameResult_game (s : RoomState) (r : GameResult) :
    (setGameResult s r).game =
      s.game.map fun g => { g with status := .FINISHED, result := some r } :=
  rfl

theorem setGameAbandoned_game (s : RoomState) (r : GameResult) :
    (setGameAbandoned s r).game =
      s.game.map fun g => { g with status := .ABANDONED, result := some r } :=
  rfl

theorem archiveGame_stable (s : RoomState) (h : s.archived ≠ []) :
    archiveGame s = s := by
  unfold archiveGame
  rcases hgg : getGame s with _ | g
  · rfl
  · by_cases ht : g.status = GameStatus.FINISHED ∨
        g.status = GameStatus.ABANDONED
    · simp only [if_pos ht]
      rcases ha : s.archived with _ | ⟨r, rs⟩
      · exact absurd ha h
      · rfl
    · simp only [if_neg ht]

/-! ### Claim theorems -/

/-- C4: archiving is idempotent per game id. archiveGame only writes for a
game whose status is FINISHED or ABANDONED (a missing game or a non-terminal
status leaves the store untouched); when a durable archive row with that id
already exists it returns without inserting again; and archiving a terminal
game twice in sequence leaves exactly one archive record for that id. -/
theorem archiveGame_idempotent (s : RoomState) :
    (getGame s = none → archiveGame s = s) ∧
    (∀ g, getGame s = some g → g.status ≠ GameStatus.FINISHED →
      g.status ≠ GameStatus.ABANDONED → archiveGame s = s) ∧
    (s.archived ≠ [] → archiveGame s = s) ∧
    (∀ g, getGame s = some g →
      (g.status = GameStatus.FINISHED ∨ g.status = GameStatus.ABANDONED) →
      s.archived = [] →
      (archiveGame (archiveGame s)).archived.length = 1) := by
  refine ⟨?_, ?_, fun h => archiveGame_stable s h, ?_⟩
  · intro h
    unfold archiveGame
    rw [h]
  · intro g hg h1 h2
    unfold archiveGame
    rw [hg]
    simp [h1, h2]
  · intro g hg hterm hempty
    have h1 : (archiveGame s).archived = [mkArchiveRow g s.moves] := by
      unfold archiveGame
      rw [hg]
      simp only [if_pos hterm]
      rw [hempty]
    rw [archiveGame_stable (archiveGame s) (by rw [h1]; simp), h1]
    rfl

/-- C4 witness: archiving a FINISHED room twice leaves exactly one row. -/
theorem archiveGame_idempotent_witness :
    (archiveGame (archiveGame finishedRoom)).archived.length = 1 :=
  (archiveGame_idempotent finishedRoom).2.2.2 finishedSession (by decide)
    (Or.inl (by decide)) (by decide)

/-- C7: when the sweeper finds an IN_PROGRESS game with both connection bits
false and no abandonment timer, it sets a timer with the canonical
disconnectedColor = white; and for any game whose timer deadline has passed,
checkAndProcessAbandonment sets the game ABANDONED with the result favoring
the opponent of the recorded disconnected color and then archives it. -/
theorem sweepZombie_canonical_white (s : RoomState) (g : GameSession)
    (now : Int) (hG : getGame s = some g)
    (hStatus : g.status = GameStatus.IN_PROGRESS)
    (hConn : getConnectionStatus s = (false, false))
    (hNoTimer : s.abandonment = none) :
    (sweepZombieRoomStep s now).1.abandonment =
      some ⟨Color.white, now + ABANDONMENT_TIMEOUT_SECONDS * 1000⟩ ∧
    ∀ (s2 : RoomState) (gh : GameHot) (c : Color) (d now2 : Int),
      s2.game = some gh → s2.abandonment = some ⟨c, d⟩ → d ≤ now2 →
      (checkAndProcessAbandonment s2 now2).2 =
        ⟨true, some (winsFor c.other)⟩ ∧
      ((checkAndProcessAbandonment s2 now2).1.game.map GameHot.status) =
        some GameStatus.ABANDONED ∧
      ((checkAndProcessAbandonment s2 now2).1.game.map GameHot.result) =
        some (some (winsFor c.other)) ∧
      (checkAndProcessAbandonment s2 now2).1.archived ≠ [] := by
  constructor
  · unfold sweepZombieRoomStep
    rw [hG]
    simp only [hStatus, hConn, hNoTimer]
    simp [setAbandonmentTimer]
  · intro s2 gh c d now2 hg2 hab hd
    have hpres := archiveGame_preserves
      (clearAbandonmentTimer (setGameAbandoned s2 (winsFor c.other)))
    have hgame : (clearAbandonmentTimer
        (setGameAbandoned s2 (winsFor c.other))).game =
        some { gh with status := .ABANDONED,
                       result := some (winsFor c.other) } := by
      simp [clearAbandonmentTimer, setGameAbandoned, hg2]
    have hres : (if c = Color.white then GameResult.BLACK_WINS
        else GameResult.WHITE_WINS) = winsFor c.other := by
      cases c <;> rfl
    unfold checkAndProcessAbandonment
    rw [hab]
    simp only [if_pos hd, hres]
    refine ⟨by trivial, ?_, ?_, ?_⟩
    · rw [hpres.1, hgame]
      rfl
    · rw [hpres.1, hgame]
      rfl
    · exact archiveGame_archived_ne_nil _ _ hgame (Or.inr rfl)

/-- C7 witness: a concrete zombie room gets a white-colored timer, and an
expired white timer finalizes as BLACK_WINS. -/
theorem sweepZombie_canonical_white_witness :
    (sweepZombieRoomStep zombieRoom 500).1.abandonment =
      some ⟨Color.white, 500 + ABANDONMENT_TIMEOUT_SECONDS * 1000⟩ ∧
    (checkAndProcessAbandonment timedOutRoom 6000).2 =
      ⟨true, some GameResult.BLACK_WINS⟩ := by
  have h := sweepZombie_canonical_white zombieRoom sampleSession 500
    (by decide) (by decide) (by decide) (by decide)
  refine ⟨h.1, ?_⟩
  exact (h.2 timedOutRoom sampleGame .white 5000 6000 (by decide) (by decide)
    (by decide)).1

theorem getGame_inv (s : RoomState) (g : GameSession)
    (hG : getGame s = some g) : s.game = some g.toGameHot := by
  rcases hsg : s.game with _ | gh
  · rw [getGame_none s hsg] at hG
    exact absurd hG (by simp)
  · rw [getGame_some s gh hsg] at hG
    exact congrArg (fun x => some x.toGameHot) (Option.some.inj hG)

/-- C8: for every inbound frame the size check runs before JSON parsing (the
oversize outcome is the same for every parser, which is therefore never
consulted); a frame of exactly 1024 units passes the size check, and any
larger frame — in particular 1025 — is answered with an error reply to the
sender describing the size violation. The raw frame is modelled as the string
the listener measures with `.length`. -/
theorem frame_size_gate {α : Type} (parseJson : String → Option α)
    (handle : α → InboundStep) (raw : String) :
    (raw.length = 1024 → checkMessageSize raw = none) ∧
    (1024 < raw.length →
      processInboundFrame parseJson handle raw =
        .errorReply ("Message too large: " ++ toString raw.length ++
          " bytes (max " ++ toString MAX_MESSAGE_SIZE ++ ")")) := by
  constructor
  · intro h
    simp [checkMessageSize, h, MAX_MESSAGE_SIZE]
  · intro h
    have hgt : raw.length > MAX_MESSAGE_SIZE := by
      simpa [MAX_MESSAGE_SIZE] using h
    unfold processInboundFrame checkMessageSize
    rw [if_pos hgt]

set_option maxRecDepth 8192 in
/-- C8 witness: a 1024-character frame passes the size check and a
1025-character frame is rejected before any parser runs. -/
theorem frame_size_gate_witness :
    checkMessageSize (String.mk (List.replicate 1024 'a')) = none ∧
    processInboundFrame (fun _ => (none : Option Unit))
      (fun _ => InboundStep.handled) (String.mk (List.replicate 1025 'a')) =
      .errorReply ("Message too large: " ++
        toString (String.mk (List.replicate 1025 'a')).length ++
        " bytes (max " ++ toString MAX_MESSAGE_SIZE ++ ")") := by
  have h1 := frame_size_gate (fun _ => (none : Option Unit))
    (fun _ => InboundStep.handled) (String.mk (List.replicate 1024 'a'))
  have h2 := frame_size_gate (fun _ => (none : Option Unit))
    (fun _ => InboundStep.handled) (String.mk (List.replicate 1025 'a'))
  exact ⟨h1.1 (by decide), h2.2 (by decide)⟩

/-- C9 counterexample: in production with CORS_ALLOWED_ORIGINS unset, an
upgrade request carrying NO Origin header is allowed through, so it is not
the case that every upgrade request is denied with a 403. -/
theorem cors_prod_no_origin_counterexample :
    upgradeOriginGate (parseAllowedOrigins none) false none =
      UpgradeOutcome.proceed ∧
    UpgradeOutcome.proceed ≠ UpgradeOutcome.denied403 := by
  decide

/-- C9 (amended): for upgrade requests that carry an Origin header, an empty
or unset CORS_ALLOWED_ORIGINS means deny-all (403) in production and allow-all
in dev, and a non-empty list admits exactly the listed origins; an upgrade
request without an Origin header is always allowed, in every configuration. -/
theorem cors_origin_gate_spec (allowed : Option (List String)) (isDev : Bool)
    (o : String) :
    (allowed = none → isDev = false →
      upgradeOriginGate allowed isDev (some o) = .denied403) ∧
    (allowed = none → isDev = true →
      upgradeOriginGate allowed isDev (some o) = .proceed) ∧
    (∀ list, allowed = some list →
      (upgradeOriginGate allowed isDev (some o) = .proceed ↔ o ∈ list)) ∧
    upgradeOriginGate allowed isDev none = .proceed := by
  refine ⟨?_, ?_, ?_, ?_⟩
  · rintro rfl rfl
    simp [upgradeOriginGate, validateWebSocketOrigin]
  · rintro rfl rfl
    simp [upgradeOriginGate, validateWebSocketOrigin]
  · rintro list rfl
    by_cases hm : o ∈ list <;>
      simp [upgradeOriginGate, validateWebSocketOrigin, hm]
  · simp [upgradeOriginGate, validateWebSocketOrigin]

/-- C9 witness: the four amended cases at concrete configurations. -/
theorem cors_origin_gate_spec_witness :
    upgradeOriginGate none false (some "https://evil.example") =
      UpgradeOutcome.denied403 ∧
    upgradeOriginGate none true (some "http://localhost:3000") =
      UpgradeOutcome.proceed ∧
    upgradeOriginGate (some ["https://a.example"]) false
      (some "https://a.example") = UpgradeOutcome.proceed ∧
    upgradeOriginGate (some ["https://a.example"]) false none =
      UpgradeOutcome.proceed := by
  have h1 := cors_origin_gate_spec none false "https://evil.example"
  have h2 := cors_origin_gate_spec none true "http://localhost:3000"
  have h3 := cors_origin_gate_spec (some ["https://a.example"]) false
    "https://a.example"
  exact ⟨h1.1 rfl rfl, h2.2.1 rfl rfl,
    (h3.2.2.1 _ rfl).mpr (by decide), h3.2.2.2⟩

/-- C10: handleFlag evaluates the timeout formula only against the sender's
opponent — the opponent's stored balance minus the time since lastMoveAt,
with no reference to the side to move — and when that remaining time is
positive the handler returns with no frame emitted (not even an error) and
the game record unchanged. -/
theorem handleFlag_silent (s : RoomState) (g : GameSession)
    (token : Option String) (pc : Color) (now : Int)
    (hG : getGame s = some g)
    (hStatus : g.status = GameStatus.IN_PROGRESS)
    (hTimed : g.timeInitialMs ≠ 0)
    (hPlayer : resolvePlayer g token = some pc)
    (hOpp : 0 < g.toGameHot.balanceOf pc.other - (now - g.lastMoveAt)) :
    handleFlag s token now = (s, []) := by
  have hsg := getGame_inv s g hG
  have hcond : ¬ (g.status ≠ GameStatus.IN_PROGRESS ∨ g.timeInitialMs = 0) := by
    simp [hStatus, hTimed]
  have htr : (checkTimeout s pc.other now).timedOut = false := by
    unfold checkTimeout
    simp only [hsg]
    simp only [decide_eq_false_iff_not, not_le]
    exact hOpp
  unfold handleFlag
  simp only [hG]
  rw [if_neg hcond]
  simp only [hPlayer]
  simp [htr]

/-- C10 witness: black flags while white (the opponent) still has 2000ms on
the formula; the handler replies with nothing and changes nothing. -/
theorem handleFlag_silent_witness :
    handleFlag sampleRoom (some "b-tok") 2000 = (sampleRoom, []) :=
  handleFlag_silent sampleRoom sampleSession (some "b-tok") .black 2000
    (by decide) (by decide) (by decide) (by decide) (by decide)

/-- C2: join succeeds exactly when the status is WAITING and the black seat
token is empty; on failure the record is unchanged; on success the status
flips to IN_PROGRESS; and when the creator color is black (directly or by the
random coin resolving black) the seat tokens are swapped so the creator ends
up seated as black and the joiner as white, the joiner's returned role being
white. -/
theorem joinGame_spec (s : RoomState) (gh : GameHot) (st : Seats)
    (joinerToken : String) (coinWhite : Bool) (nowMs : Int)
    (hGame : s.game = some gh) (hSeats : s.seats = some st)
    (hWt : st.whiteToken ≠ "") :
    ((joinGame s joinerToken coinWhite nowMs).2 ≠ none ↔
      gh.status = GameStatus.WAITING ∧ st.blackToken = none) ∧
    ((joinGame s joinerToken coinWhite nowMs).2 = none →
      (joinGame s joinerToken coinWhite nowMs).1 = s) ∧
    ((joinGame s joinerToken coinWhite nowMs).2 ≠ none →
      ((joinGame s joinerToken coinWhite nowMs).1.game.map GameHot.status) =
        some GameStatus.IN_PROGRESS) ∧
    (gh.status = GameStatus.WAITING → st.blackToken = none →
      (gh.creatorColor = CreatorColor.black ∨
        (gh.creatorColor = CreatorColor.random ∧ coinWhite = false)) →
      (joinGame s joinerToken coinWhite nowMs).1.seats =
        some { whiteToken := joinerToken, whiteConnected := true,
               blackToken := some st.whiteToken, blackConnected := false } ∧
      (joinGame s joinerToken coinWhite nowMs).2 =
        some { token := joinerToken, role := Color.white }) := by
  have hgs : getSeats s = some st := by simp [getSeats, hSeats, hWt]
  have hGG : getGame s = some ⟨gh, st.whiteToken, st.blackToken⟩ := by
    rw [getGame_some s gh hGame, hgs]; rfl
  by_cases hw : gh.status = GameStatus.WAITING
  · by_cases hb : st.blackToken = none
    · refine ⟨?_, ?_, ?_, ?_⟩
      · unfold joinGame
        simp only [hGG, hw, hb, hGame, hSeats, Option.map_some']
        simp [hb, hw]
      · unfold joinGame
        simp only [hGG, hw, hb, hGame, hSeats, Option.map_some']
        simp [hb, hw]
      · intro _
        unfold joinGame
        simp only [hGG, hw, hb, hGame, hSeats, Option.map_some']
        simp only [ne_eq, not_true_eq_false, false_or, or_self, if_false,
          not_false_eq_true, Option.getD_some]
        simp [hb]
        split <;> rfl
      · intro _ _ hcc
        unfold joinGame
        simp only [hGG, hw, hb, hGame, hSeats, Option.map_some']
        rcases hcc with hcc | ⟨hcc, hcw⟩
        · simp [hcc, hb]
        · simp [hcc, hcw, hb]
    · have hrun : joinGame s joinerToken coinWhite nowMs = (s, none) := by
        unfold joinGame
        simp [hGG, hb]
      simp [hrun, hb]
  · have hrun : joinGame s joinerToken coinWhite nowMs = (s, none) := by
      unfold joinGame
      simp [hGG, hw]
    simp [hrun, hw]

/-- C2 witness: joining a WAITING room whose creator chose black seats the
joiner as white, hands the creator token to the black seat, and returns role
white. -/
theorem joinGame_spec_witness :
    (joinGame waitingRoom "j-tok" true 777).1.seats =
      some { whiteToken := "j-tok", whiteConnected := true,
             blackToken := some "w-tok", blackConnected := false } ∧
    (joinGame waitingRoom "j-tok" true 777).2 =
      some { token := "j-tok", role := Color.white } := by
  have h := joinGame_spec waitingRoom waitingGame waitingSeats "j-tok" true 777
    (by decide) (by decide) (by decide)
  have h4 := h.2.2.2 (by decide) (by decide) (Or.inl (by decide))
  exact ⟨h4.1, h4.2⟩

/-- C5: a draw_offer from a seated player of an IN_PROGRESS game records the
sender's color in the single offer slot and broadcasts `draw_offer` when no
offer exists; when an offer by the opposite color exists the command becomes
an implicit draw accept: status FINISHED, result DRAW, offer cleared, the
game archived, `draw_accepted` broadcast. -/
theorem handleDrawOffer_spec (s : RoomState) (g : GameSession)
    (token : Option String) (pc : Color)
    (hG : getGame s = some g) (hStatus : g.status = GameStatus.IN_PROGRESS)
    (hPlayer : resolvePlayer g token = some pc) :
    (s.drawOffer = none →
      handleDrawOffer s token =
        ({ s with drawOffer := some pc }, [.toAll (.drawOfferF pc)])) ∧
    (∀ oc, s.drawOffer = some oc → oc ≠ pc →
      ((handleDrawOffer s token).1.game.map GameHot.status) =
        some GameStatus.FINISHED ∧
      ((handleDrawOffer s token).1.game.map GameHot.result) =
        some (some GameResult.DRAW) ∧
      (handleDrawOffer s token).1.drawOffer = none ∧
      (handleDrawOffer s token).1.archived ≠ [] ∧
      (handleDrawOffer s token).2 = [.toAll (.drawAccepted .DRAW)]) := by
  have hsg := getGame_inv s g hG
  constructor
  · intro hoff
    unfold handleDrawOffer
    simp only [hG, hStatus, hPlayer, hoff]
    simp [setDrawOffer]
  · intro oc hoff hne
    have hrun : handleDrawOffer s token = handleDrawAccept s token := by
      unfold handleDrawOffer
      simp only [hG, hStatus, hPlayer, hoff]
      simp [hne]
    have haccept : handleDrawAccept s token =
        (archiveGame (clearDrawOffer (setGameResult s GameResult.DRAW)),
          [Emit.toAll (Frame.drawAccepted GameResult.DRAW)]) := by
      unfold handleDrawAccept
      simp only [hG, hStatus, hPlayer, hoff]
      simp [hne]
    have hgame : (clearDrawOffer (setGameResult s GameResult.DRAW)).game =
        some { g.toGameHot with status := .FINISHED,
                                result := some .DRAW } := by
      simp [clearDrawOffer, setGameResult, hsg]
    have hpres := archiveGame_preserves
      (clearDrawOffer (setGameResult s GameResult.DRAW))
    rw [hrun, haccept]
    refine ⟨?_, ?_, ?_, ?_, rfl⟩
    · rw [hpres.1, hgame]; rfl
    · rw [hpres.1, hgame]; rfl
    · rw [hpres.2.2.2.1]; rfl
    · exact archiveGame_archived_ne_nil _ _ hgame (Or.inl rfl)

/-- C5 witness: with no offer recorded white's offer is stored and broadcast;
with black's offer pending white's draw_offer broadcasts `draw_accepted`. -/
theorem handleDrawOffer_spec_witness :
    handleDrawOffer sampleRoom (some "w-tok") =
      ({ sampleRoom with drawOffer := some Color.white },
        [Emit.toAll (Frame.drawOfferF Color.white)]) ∧
    (handleDrawOffer drawOfferRoom (some "w-tok")).2 =
      [Emit.toAll (Frame.drawAccepted GameResult.DRAW)] := by
  have h1 := handleDrawOffer_spec sampleRoom sampleSession (some "w-tok")
    .white (by decide) (by decide) (by decide)
  have h2 := handleDrawOffer_spec drawOfferRoom sampleSession (some "w-tok")
    .white (by decide) (by decide) (by decide)
  exact ⟨h1.1 rfl, (h2.2 .black rfl (by decide)).2.2.2.2⟩

/-- C3: when the server is about to emit game_state for a timed IN_PROGRESS
game with lastMoveAt set and the side to move of the emitted position has
live remaining time ≤ 0 (its stored balance minus the time since lastMoveAt),
no game_state frame is sent: the outcome is a flag finalization that sets the
result in favor of the other color, archives the game, and broadcasts a flag
frame. The hypothesis that the non-moving side's stored balance is positive
is data-model invariant 4 (both balances of a live timed game are positive). -/
theorem game_state_bust_finalizes (s : RoomState) (g : GameSession)
    (actualFen : String) (now : Int)
    (hG : getGame s = some g)
    (hTimed : 0 < g.timeInitialMs)
    (hStatus : g.status = GameStatus.IN_PROGRESS)
    (hLast : 0 < g.lastMoveAt)
    (hBust : g.toGameHot.balanceOf (sideToMove actualFen) -
      (now - g.lastMoveAt) ≤ 0)
    (hOpp : 0 < g.toGameHot.balanceOf (sideToMove actualFen).other) :
    emitGameStateClock s g actualFen now =
      .flagFinalized
        (archiveGame (setGameResult s (winsFor (sideToMove actualFen).other)))
        (.flag (winsFor (sideToMove actualFen).other)
          (if sideToMove actualFen = Color.white then
            max 0 (max 0 (g.whiteTimeMs - (now - g.lastMoveAt)))
          else max 0 g.whiteTimeMs)
          (if sideToMove actualFen = Color.black then
            max 0 (max 0 (g.blackTimeMs - (now - g.lastMoveAt)))
          else max 0 g.blackTimeMs)) ∧
    ((archiveGame (setGameResult s
        (winsFor (sideToMove actualFen).other))).game.map GameHot.status) =
      some GameStatus.FINISHED ∧
    ((archiveGame (setGameResult s
        (winsFor (sideToMove actualFen).other))).game.map GameHot.result) =
      some (some (winsFor (sideToMove actualFen).other)) ∧
    (archiveGame (setGameResult s
      (winsFor (sideToMove actualFen).other))).archived ≠ [] := by
  have hsg := getGame_inv s g hG
  have harch : ∀ r : GameResult,
      ((archiveGame (setGameResult s r)).game.map GameHot.status) =
        some GameStatus.FINISHED ∧
      ((archiveGame (setGameResult s r)).game.map GameHot.result) =
        some (some r) ∧
      (archiveGame (setGameResult s r)).archived ≠ [] := by
    intro r
    have hgame : (setGameResult s r).game =
        some { g.toGameHot with status := .FINISHED, result := some r } := by
      simp [setGameResult, hsg]
    have hpres := archiveGame_preserves (setGameResult s r)
    refine ⟨?_, ?_, ?_⟩
    · rw [hpres.1, hgame]; rfl
    · rw [hpres.1, hgame]; rfl
    · exact archiveGame_archived_ne_nil _ _ hgame (Or.inl rfl)
  by_cases ht : turnField actualFen = "w"
  · have hstm : sideToMove actualFen = Color.white := by
      simp [sideToMove, ht]
    rw [hstm] at hBust hOpp ⊢
    have hc1 : max 0 (g.whiteTimeMs - (now - g.lastMoveAt)) ≤ 0 :=
      max_le le_rfl hBust
    refine ⟨?_, (harch _).1, (harch _).2.1, (harch _).2.2⟩
    unfold emitGameStateClock
    rw [if_pos hTimed]
    simp only [hStatus, reduceCtorEq, if_false, eq_self_iff_true, true_and,
      ite_false, ite_true]
    rw [if_pos hLast, if_pos ht, if_pos (Or.inl hc1), if_pos hc1]
    rfl
  · have hstm : sideToMove actualFen = Color.black := by
      simp [sideToMove, ht]
    rw [hstm] at hBust hOpp ⊢
    have hc2 : max 0 (g.blackTimeMs - (now - g.lastMoveAt)) ≤ 0 :=
      max_le le_rfl hBust
    have hw1 : ¬ g.whiteTimeMs ≤ 0 := not_le.mpr hOpp
    refine ⟨?_, (harch _).1, (harch _).2.1, (harch _).2.2⟩
    unfold emitGameStateClock
    rw [if_pos hTimed]
    simp only [hStatus, reduceCtorEq, if_false, eq_self_iff_true, true_and,
      ite_false, ite_true]
    rw [if_pos hLast, if_neg ht, if_pos (Or.inr hc2), if_neg hw1]
    rfl

/-- C3 witness: at 9999ms white to move is 5999ms past its balance, so the
join-time check finalizes a flag instead of emitting game_state. -/
theorem game_state_bust_finalizes_witness :
    emitGameStateClock sampleRoom sampleSession INITIAL_FEN 9999 =
      .flagFinalized
        (archiveGame (setGameResult sampleRoom
          (winsFor (sideToMove INITIAL_FEN).other)))
        (.flag (winsFor (sideToMove INITIAL_FEN).other)
          (if sideToMove INITIAL_FEN = Color.white then
            max 0 (max 0 (sampleSession.whiteTimeMs -
              (9999 - sampleSession.lastMoveAt)))
          else max 0 sampleSession.whiteTimeMs)
          (if sideToMove INITIAL_FEN = Color.black then
            max 0 (max 0 (sampleSession.blackTimeMs -
              (9999 - sampleSession.lastMoveAt)))
          else max 0 sampleSession.blackTimeMs)) :=
  (game_state_bust_finalizes sampleRoom sampleSession INITIAL_FEN 9999
    (by decide) (by decide) (by decide) (by decide) (by decide)
    (by decide)).1

/-- C6: accepting a rematch mints a new room that starts IN_PROGRESS with
both seats marked connected; the colors are swapped relative to the finished
game: the peer whose token equals the previous whiteToken is sent the new
BLACK-seat token in its rematch_accepted frame, and the holder of the
previous blackToken is sent the new WHITE-seat token. -/
theorem handleRematchAccept_spec (s : RoomState) (g : GameSession)
    (token : Option String) (pc oc : Color)
    (newGameId newWhiteToken newBlackToken : String) (now : Int)
    (hG : getGame s = some g) (hStatus : g.status = GameStatus.FINISHED)
    (hPlayer : resolvePlayer g token = some pc)
    (hOffer : s.rematchOffer = some oc) (hne : oc ≠ pc) :
    handleRematchAccept s token newGameId newWhiteToken newBlackToken now =
      .accepted
        (createRematchGame g.whiteToken (g.blackToken.getD "")
          g.timeInitialMs g.timeIncrementMs
          newGameId newWhiteToken newBlackToken now).1
        newGameId newWhiteToken newBlackToken
        (deleteGame (clearRematchOffer s)) ∧
    (((createRematchGame g.whiteToken (g.blackToken.getD "")
        g.timeInitialMs g.timeIncrementMs
        newGameId newWhiteToken newBlackToken now).1.game.map
          GameHot.status) = some GameStatus.IN_PROGRESS) ∧
    ((createRematchGame g.whiteToken (g.blackToken.getD "")
        g.timeInitialMs g.timeIncrementMs
        newGameId newWhiteToken newBlackToken now).1.seats =
      some { whiteToken := newWhiteToken, whiteConnected := true,
             blackToken := some newBlackToken, blackConnected := true }) ∧
    rematchTokenFor g newWhiteToken newBlackToken (some g.whiteToken) =
      some newBlackToken ∧
    (∀ bt, g.blackToken = some bt → bt ≠ g.whiteToken →
      rematchTokenFor g newWhiteToken newBlackToken (some bt) =
        some newWhiteToken) := by
  refine ⟨?_, ?_, ?_, ?_, ?_⟩
  · unfold handleRematchAccept
    simp only [hG, hStatus, hPlayer, hOffer]
    simp [hne, createRematchGame]
  · simp [createRematchGame]
  · simp [createRematchGame]
  · unfold rematchTokenFor
    simp
  · intro bt hbt hbtne
    unfold rematchTokenFor
    simp [hbt, hbtne]

/-- C6 witness: in a finished room with black's rematch offer pending,
white's accept creates the swapped room and routes the tokens crosswise. -/
theorem handleRematchAccept_spec_witness :
    handleRematchAccept finishedRoom (some "w-tok") "new-id" "new-w" "new-b"
      42 =
      .accepted
        (createRematchGame finishedSession.whiteToken
          (finishedSession.blackToken.getD "")
          finishedSession.timeInitialMs finishedSession.timeIncrementMs
          "new-id" "new-w" "new-b" 42).1
        "new-id" "new-w" "new-b"
        (deleteGame (clearRematchOffer finishedRoom)) ∧
    rematchTokenFor finishedSession "new-w" "new-b" (some "w-tok") =
      some "new-b" ∧
    rematchTokenFor finishedSession "new-w" "new-b" (some "b-tok") =
      some "new-w" := by
  have h := handleRematchAccept_spec finishedRoom finishedSession
    (some "w-tok") .white .black "new-id" "new-w" "new-b" 42
    (by decide) (by decide) (by decide) (by decide) (by decide)
  exact ⟨h.1, h.2.2.2.1, h.2.2.2.2 "b-tok" (by decide) (by decide)⟩

/-- Observation lemma: setGameResult-then-archiveGame leaves the move log,
FEN, lastMoveAt and both clock balances untouched. -/
theorem archSet_obs (s : RoomState) (r : GameResult) :
    (archiveGame (setGameResult s r)).moves = s.moves ∧
    ((archiveGame (setGameResult s r)).game.map GameHot.currentFen) =
      s.game.map GameHot.currentFen ∧
    ((archiveGame (setGameResult s r)).game.map GameHot.lastMoveAt) =
      s.game.map GameHot.lastMoveAt ∧
    ∀ c, ((archiveGame (setGameResult s r)).game.map
      fun x => x.balanceOf c) = s.game.map fun x => x.balanceOf c := by
  have hpres := archiveGame_preserves (setGameResult s r)
  refine ⟨?_, ?_, ?_, ?_⟩
  · rw [hpres.2.2.1]; rfl
  · rw [hpres.1, setGameResult_game]
    cases s.game <;> rfl
  · rw [hpres.1, setGameResult_game]
    cases s.game <;> rfl
  · intro c
    rw [hpres.1, setGameResult_game]
    cases s.game <;> cases c <;> rfl

/-- Observation lemma: the post-record tail of handleMove leaves the move
log, FEN, lastMoveAt and both clock balances untouched. -/
theorem handleMoveTail_state (api : ChessApi) (s : RoomState)
    (fromSq toSq san newFen : String) (moveNumber : Nat) (createdAt : Int)
    (times : Option (Int × Int)) :
    (handleMoveTail api s fromSq toSq san newFen moveNumber createdAt
      times).1.moves = s.moves ∧
    ((handleMoveTail api s fromSq toSq san newFen moveNumber createdAt
      times).1.game.map GameHot.currentFen) =
      s.game.map GameHot.currentFen ∧
    ((handleMoveTail api s fromSq toSq san newFen moveNumber createdAt
      times).1.game.map GameHot.lastMoveAt) =
      s.game.map GameHot.lastMoveAt ∧
    ∀ c, ((handleMoveTail api s fromSq toSq san newFen moveNumber createdAt
      times).1.game.map fun x => x.balanceOf c) =
      s.game.map fun x => x.balanceOf c := by
  unfold handleMoveTail
  cases hcm : api.isCheckmate newFen <;> cases hdr : api.isDraw newFen <;>
    simp only [hcm, hdr, Bool.false_or, Bool.true_or, Bool.or_false,
      Bool.or_true, if_true, if_false, ite_true, ite_false]
  · simp [clearDrawOffer]
  · exact ⟨(archSet_obs s _).1, (archSet_obs s _).2.1,
      (archSet_obs s _).2.2.1, (archSet_obs s _).2.2.2⟩
  · exact ⟨(archSet_obs s _).1, (archSet_obs s _).2.1,
      (archSet_obs s _).2.2.1, (archSet_obs s _).2.2.2⟩
  · exact ⟨(archSet_obs s _).1, (archSet_obs s _).2.1,
      (archSet_obs s _).2.2.1, (archSet_obs s _).2.2.2⟩

/-- C1: for a timed IN_PROGRESS game, an accepted move by the side to move
is settled by the atomic deduction with remaining = the mover's stored
balance minus (now - lastMoveAt): when remaining ≤ 0 the move is rejected as
a flag with the mover as loser and neither the move log nor the FEN changes;
otherwise the mover's balance becomes remaining + increment, lastMoveAt is
set to now, the move is appended to the log, and currentFen becomes the
move's FEN. The abandonment-timer-free hypothesis keeps the entry check of
handleMove from diverting the command. -/
theorem handleMove_timed_clock (api : ChessApi) (s : RoomState)
    (g : GameSession) (token : Option String) (fromSq toSq : String)
    (promotion : Option String) (now : Int) (mv : ChessMoveOut) (pc : Color)
    (hAb : s.abandonment = none)
    (hG : getGame s = some g)
    (hStatus : g.status = GameStatus.IN_PROGRESS)
    (hTimed : 0 < g.timeInitialMs)
    (hPlayer : resolvePlayer g token = some pc)
    (hTurn : api.turn g.currentFen = pc)
    (hMove : api.tryMove g.currentFen fromSq toSq promotion = some mv) :
    (g.toGameHot.balanceOf pc - (now - g.lastMoveAt) ≤ 0 →
      (handleMove api s token fromSq toSq promotion now).2 =
        [Emit.toAll (Frame.flag (winsFor pc.other) 0 0)] ∧
      (handleMove api s token fromSq toSq promotion now).1.moves = s.moves ∧
      ((handleMove api s token fromSq toSq promotion now).1.game.map
        GameHot.currentFen) = some g.currentFen) ∧
    (0 < g.toGameHot.balanceOf pc - (now - g.lastMoveAt) →
      ((handleMove api s token fromSq toSq promotion now).1.game.map
        fun x => x.balanceOf pc) =
        some (g.toGameHot.balanceOf pc - (now - g.lastMoveAt) +
          g.timeIncrementMs) ∧
      ((handleMove api s token fromSq toSq promotion now).1.game.map
        GameHot.lastMoveAt) = some now ∧
      (handleMove api s token fromSq toSq promotion now).1.moves =
        s.moves ++ [⟨s.moves.length + 1, mv.san, mv.fen, now⟩] ∧
      ((handleMove api s token fromSq toSq promotion now).1.game.map
        GameHot.currentFen) = some mv.fen) := by
  have hsg := getGame_inv s g hG
  have hab0 : checkAndProcessAbandonment s now =
      (s, { abandoned := false, result := none }) := by
    unfold checkAndProcessAbandonment
    rw [hAb]
  constructor
  · intro hrem
    have hdr : deductTimeAndMove s pc
        ⟨s.moves.length + 1, mv.san, mv.fen, now⟩ now =
        (s, { whiteTimeMs := 0, blackTimeMs := 0, timedOut := true,
              loser := some pc }) := by
      unfold deductTimeAndMove
      rw [hsg]
      simp only [Option.map_some', Option.getD_some]
      rw [if_pos hrem]
    have hrun : handleMove api s token fromSq toSq promotion now =
        (archiveGame (setGameResult s (winsFor pc.other)),
          [Emit.toAll (Frame.flag (winsFor pc.other) 0 0)]) := by
      unfold handleMove
      simp only [hab0]
      simp only [hG, hStatus, hPlayer, hTurn, hMove]
      simp only [reduceCtorEq, ite_false, ite_true, if_false, if_true,
        ne_eq, not_true_eq_false]
      rw [if_pos hTimed]
      simp only [hdr]
      cases pc <;> simp [winsFor, Color.other]
    rw [hrun]
    refine ⟨rfl, (archSet_obs s _).1, ?_⟩
    rw [(archSet_obs s _).2.1, hsg]
    rfl
  · intro hrem
    have hnle : ¬ (g.toGameHot.balanceOf pc - (now - g.lastMoveAt) ≤ 0) :=
      not_le.mpr hrem
    cases pc
    case white =>
      have hdr : deductTimeAndMove s Color.white
          ⟨s.moves.length + 1, mv.san, mv.fen, now⟩ now =
          ({ s with
              game := some { g.toGameHot with
                whiteTimeMs := g.whiteTimeMs - (now - g.lastMoveAt) +
                  g.timeIncrementMs,
                lastMoveAt := now, currentFen := mv.fen },
              moves := s.moves ++
                [⟨s.moves.length + 1, mv.san, mv.fen, now⟩] },
            { whiteTimeMs := g.whiteTimeMs - (now - g.lastMoveAt) +
                g.timeIncrementMs,
              blackTimeMs := g.blackTimeMs, timedOut := false,
              loser := none }) := by
        unfold deductTimeAndMove
        rw [hsg]
        simp only [Option.map_some', Option.getD_some]
        rw [if_neg hnle]
        rfl
      have hrun : handleMove api s token fromSq toSq promotion now =
          handleMoveTail api
            ({ s with
              game := some { g.toGameHot with
                whiteTimeMs := g.whiteTimeMs - (now - g.lastMoveAt) +
                  g.timeIncrementMs,
                lastMoveAt := now, currentFen := mv.fen },
              moves := s.moves ++
                [⟨s.moves.length + 1, mv.san, mv.fen, now⟩] })
            fromSq toSq mv.san mv.fen (s.moves.length + 1) now
            (some (g.whiteTimeMs - (now - g.lastMoveAt) +
              g.timeIncrementMs, g.blackTimeMs)) := by
        unfold handleMove
        simp only [hab0]
        simp only [hG, hStatus, hPlayer, hTurn, hMove]
        simp only [reduceCtorEq, ite_false, ite_true, if_false, if_true,
          ne_eq, not_true_eq_false]
        rw [if_pos hTimed]
        simp only [hdr]
        simp [hStatus]
      have hts := handleMoveTail_state api
        ({ s with
            game := some { g.toGameHot with
              whiteTimeMs := g.whiteTimeMs - (now - g.lastMoveAt) +
                g.timeIncrementMs,
              lastMoveAt := now, currentFen := mv.fen },
            moves := s.moves ++
              [⟨s.moves.length + 1, mv.san, mv.fen, now⟩] })
        fromSq toSq mv.san mv.fen (s.moves.length + 1) now
        (some (g.whiteTimeMs - (now - g.lastMoveAt) +
          g.timeIncrementMs, g.blackTimeMs))
      rw [hrun]
      exact ⟨(hts.2.2.2 Color.white).trans rfl, hts.2.2.1.trans rfl,
        hts.1.trans rfl, hts.2.1.trans rfl⟩
    case black =>
      have hdr : deductTimeAndMove s Color.black
          ⟨s.moves.length + 1, mv.san, mv.fen, now⟩ now =
          ({ s with
              game := some { g.toGameHot with
                blackTimeMs := g.blackTimeMs - (now - g.lastMoveAt) +
                  g.timeIncrementMs,
                lastMoveAt := now, currentFen := mv.fen },
              moves := s.moves ++
                [⟨s.moves.length + 1, mv.san, mv.fen, now⟩] },
            { whiteTimeMs := g.whiteTimeMs,
              blackTimeMs := g.blackTimeMs - (now - g.lastMoveAt) +
                g.timeIncrementMs,
              timedOut := false, loser := none }) := by
        unfold deductTimeAndMove
        rw [hsg]
        simp only [Option.map_some', Option.getD_some]
        rw [if_neg hnle]
        rfl
      have hrun : handleMove api s token fromSq toSq promotion now =
          handleMoveTail api
            ({ s with
              game := some { g.toGameHot with
                blackTimeMs := g.blackTimeMs - (now - g.lastMoveAt) +
                  g.timeIncrementMs,
                lastMoveAt := now, currentFen := mv.fen },
              moves := s.moves ++
                [⟨s.moves.length + 1, mv.san, mv.fen, now⟩] })
            fromSq toSq mv.san mv.fen (s.moves.length + 1) now
            (some (g.whiteTimeMs, g.blackTimeMs - (now - g.lastMoveAt) +
              g.timeIncrementMs)) := by
        unfold handleMove
        simp only [hab0]
        simp only [hG, hStatus, hPlayer, hTurn, hMove]
        simp only [reduceCtorEq, ite_false, ite_true, if_false, if_true,
          ne_eq, not_true_eq_false]
        rw [if_pos hTimed]
        simp only [hdr]
        simp [hStatus]
      have hts := handleMoveTail_state api
        ({ s with
            game := some { g.toGameHot with
              blackTimeMs := g.blackTimeMs - (now - g.lastMoveAt) +
                g.timeIncrementMs,
              lastMoveAt := now, currentFen := mv.fen },
            moves := s.moves ++
              [⟨s.moves.length + 1, mv.san, mv.fen, now⟩] })
        fromSq toSq mv.san mv.fen (s.moves.length + 1) now
        (some (g.whiteTimeMs, g.blackTimeMs - (now - g.lastMoveAt) +
          g.timeIncrementMs))
      rw [hrun]
      exact ⟨(hts.2.2.2 Color.black).trans rfl, hts.2.2.1.trans rfl,
        hts.1.trans rfl, hts.2.1.trans rfl⟩

/-- C1 witness: with 2000ms left white's move is recorded with the increment
credited; at now = 9999 the same move busts and only a flag is broadcast. -/
theorem handleMove_timed_clock_witness :
    (handleMove testApi sampleRoom (some "w-tok") "e2" "e4" none
      2000).1.moves =
      sampleRoom.moves ++ [⟨1, "e4", "FEN2", 2000⟩] ∧
    (handleMove testApi sampleRoom (some "w-tok") "e2" "e4" none 9999).2 =
      [Emit.toAll (Frame.flag (winsFor Color.white.other) 0 0)] := by
  have h1 := handleMove_timed_clock testApi sampleRoom sampleSession
    (some "w-tok") "e2" "e4" none 2000 ⟨"e4", "FEN2"⟩ .white
    (by decide) (by decide) (by decide) (by decide) (by decide) (by decide)
    (by decide)
  have h2 := handleMove_timed_clock testApi sampleRoom sampleSession
    (some "w-tok") "e2" "e4" none 9999 ⟨"e4", "FEN2"⟩ .white
    (by decide) (by decide) (by decide) (by decide) (by decide) (by decide)
    (by decide)
  exact ⟨(h1.2 (by decide)).2.2.1, (h2.1 (by decide)).1⟩

end OpenChess
